import Mathlib

/-!
Verification development for mlpack's decision-tree command-line entry point
(`src/mlpack/methods/decision_tree/decision_tree_main.cpp`).

The file shallowly embeds the orchestration logic of `mlpackMain`:
parameter validation, label resolution, class counting, training/test
dispatch, accuracy reporting and model persistence.  The decision-tree
learner itself (`DecisionTree<>`) is an external library component and is
represented by an abstract `Classifier` interface, exactly as the entry
point uses it (two training constructors and `Classify`).

Modelling conventions:
* `arma::mat` (doubles) is modelled with exact rationals `ℚ`; a matrix is a
  column count together with its list of rows (`rows = dimensions`,
  `cols = samples`, as in Armadillo).
* `size_t` arithmetic wraps modulo `2^64`; in particular
  `trainingSet.n_rows - 1` underflows for a zero-row matrix.
* Element accesses that Armadillo would bounds-check (or that would be out
  of bounds) are modelled with `Option` / an `outOfBounds` error.
* `Log::Info` output is modelled as a list of structured `LogMsg` values;
  warnings issued by `ReportIgnoredParam` / `RequireAtLeastOnePassed` as a
  list of `Warning` values.  The accuracy message stores the raw counts
  `(correct, total)`; the printed percentage is `100 * correct / total`.
-/

namespace DTreeMain

/-- Number of values of the C++ type `size_t` (64-bit). -/
def SIZE_T_CARD : ℕ := 2 ^ 64

/-- A dense numeric matrix (`arma::mat`): entries are doubles, modelled as
rationals.  `nCols` is the number of samples; `rows` lists the dimensions
(Armadillo keeps `n_cols` even when all rows have been shed, hence the
explicit field). -/
structure Mat where
  nCols : ℕ
  rows : List (List ℚ)
deriving DecidableEq

/-- Per-dimension categorical metadata (`mlpack::data::DatasetInfo`): for
each dimension, the number of categories (`0` for a numeric dimension).
Only its identity matters to the entry point, which stores it on the model
and reattaches it to test data. -/
structure DatasetInfo where
  dimTypes : List ℕ
deriving DecidableEq

/-- The serializable model wrapper of the entry point (`DecisionTreeModel`):
a trained tree plus the `DatasetInfo` used at training time.  The tree type
`T` is abstract: the tree lives in the external library. -/
structure DecisionTreeModel (T : Type) where
  tree : T
  info : DatasetInfo
deriving DecidableEq

/-- The external `DecisionTree<>` interface exactly as consumed by
`mlpackMain`: an unweighted training constructor, a weighted one, and
`Classify(features) -> (predictions, probabilities)`. -/
structure Classifier (T : Type) where
  trainUnweighted : Mat → DatasetInfo → List ℕ → ℕ → ℕ → ℚ → T
  trainWeighted : Mat → DatasetInfo → List ℕ → ℕ → List ℚ → ℕ → ℚ → T
  classify : T → Mat → List ℕ × Mat

/-- Truncation toward zero, the conversion a C++ floating-point to integer
cast performs (and `arma::conv_to` to an integer type: the decimal part is
truncated, not rounded). -/
def truncQ (q : ℚ) : ℤ := if 0 ≤ q then ⌊q⌋ else ⌈q⌉

/-- Conversion of one matrix entry to `size_t`, as in
`arma::conv_to<arma::Row<size_t>>::from`: truncate toward zero, then reduce
into the unsigned 64-bit range. -/
def convToSizeT (q : ℚ) : ℕ := ((truncQ q) % (SIZE_T_CARD : ℤ)).toNat

/-- The row index `trainingSet.n_rows - 1` computed with `size_t`
arithmetic: for a zero-row matrix the subtraction wraps to `2^64 - 1`. -/
def shedRowIdx (m : Mat) : ℕ := (m.rows.length + SIZE_T_CARD - 1) % SIZE_T_CARD

/-- Lines 166–168: extract the row at index `n_rows - 1` as labels
(converted to `size_t`) and shed that row from the matrix.  `none` models an
out-of-bounds row access (zero-row matrix: the index wraps to `2^64 - 1`). -/
def lastRowAsLabels (m : Mat) : Option (Mat × List ℕ) :=
  match m.rows.get? (shedRowIdx m) with
  | none => none
  | some r => some (⟨m.nCols, m.rows.eraseIdx (shedRowIdx m)⟩, r.map convToSizeT)

/-- Lines 157–169: label resolution.  An explicit label vector is used as
is; otherwise the last row of the training matrix is taken as labels and
removed. -/
def resolveLabels (ts0 : Mat) : Option (List ℕ) → Option (Mat × List ℕ)
  | some l => some (ts0, l)
  | none => lastRowAsLabels ts0

/-- Armadillo `arma::max` over a row of `size_t` values; empty input is a
runtime error in Armadillo, modelled as `none`. -/
def armaMaxRow (l : List ℕ) : Option ℕ :=
  match l with
  | [] => none
  | x :: xs => some (xs.foldl max x)

/-- Line 171: `numClasses = arma::max(arma::max(labels)) + 1`. -/
def numClassesOf (l : List ℕ) : Option ℕ := (armaMaxRow l).map (· + 1)

/-- The C++ cast `(size_t) x` of an `int` value. -/
def toSizeT (i : ℤ) : ℕ := (i % (SIZE_T_CARD : ℤ)).toNat

/-- The parameters of one invocation of the binding.  Inputs that `HasParam`
tests for are `Option`s / `Bool`s; the three output parameters only record
whether the user requested them (`*Passed`). -/
structure Params (T : Type) where
  training : Option (DatasetInfo × Mat)
  labels : Option (List ℕ)
  test : Option (DatasetInfo × Mat)
  weights : Option (List ℚ)
  testLabels : Option (List ℕ)
  minimum_leaf_size : ℤ
  minimum_gain_split : ℚ
  print_training_error : Bool
  inputModel : Option (DecisionTreeModel T)
  outputModelPassed : Bool
  probabilitiesPassed : Bool
  predictionsPassed : Bool
deriving DecidableEq

/-- A non-fatal warning: a parameter ignored by `ReportIgnoredParam`, or
the `RequireAtLeastOnePassed` "no output will be saved" notice. -/
inductive Warning
  | ignoredParam (name : String)
  | noOutput
deriving DecidableEq

/-- An entry on the `Log::Info` stream. -/
inductive LogMsg
  | usingLastDim
  | accuracy (setName : String) (correct : ℕ) (total : ℕ)
deriving DecidableEq

/-- A fatal error aborting the run: a `ConfigurationError` from the
parameter checks, an out-of-bounds element access, or an Armadillo runtime
error. -/
inductive RunError
  | config (msg : String)
  | outOfBounds (msg : String)
  | runtime (msg : String)
deriving DecidableEq

def requireOnlyOneMsg : String := "Can only pass one of training and input_model"

def leafSizeMsg : String := "leaf size must be positive"

def gainSplitMsg : String := "gain split must be a fraction in range [0,1]"

def rowOobMsg : String := "row index out of bounds"

def maxEmptyMsg : String := "max(): object has no elements"

def accuracyOobMsg : String := "element access out of bounds"

/-- Lines 132–138: the warnings collected by the non-fatal checks, in
source order: `test_labels` ignored without a test set, the
`RequireAtLeastOnePassed` "no output will be saved" notice,
`print_training_error` ignored without training, and the duplicated
ignored check of `predictions` (lines 137 and 138 both name
`predictions`; `probabilities` is never checked). -/
def ignoredWarnings {T : Type} (p : Params T) : List Warning :=
  (if p.test.isNone && p.testLabels.isSome then
    [Warning.ignoredParam "test_labels"] else [])
  ++ (if !(p.outputModelPassed || p.probabilitiesPassed || p.predictionsPassed)
      then [Warning.noOutput] else [])
  ++ (if p.training.isNone && p.print_training_error then
      [Warning.ignoredParam "print_training_error"] else [])
  ++ (if p.test.isNone && p.predictionsPassed then
      [Warning.ignoredParam "predictions"] else [])
  ++ (if p.test.isNone && p.predictionsPassed then
      [Warning.ignoredParam "predictions"] else [])

/-- Lines 131–145: the parameter checks.  The fatal checks
(`RequireOnlyOnePassed` at line 131, the two `RequireParamValue`s at lines
140–145) abort with a `ConfigurationError`, in source order; the non-fatal
checks only produce the warnings of `ignoredWarnings` (in the source the
warnings are printed before the fatal hyperparameter checks run; an aborted
run discards them here, which no surviving observation distinguishes). -/
def checkParams {T : Type} (p : Params T) : Except RunError (List Warning) :=
  if p.training.isSome = p.inputModel.isSome then
    .error (.config requireOnlyOneMsg)
  else if ¬ (0 < p.minimum_leaf_size) then
    .error (.config leafSizeMsg)
  else if ¬ (0 < p.minimum_gain_split ∧ p.minimum_gain_split < 1) then
    .error (.config gainSplitMsg)
  else
    .ok (ignoredWarnings p)

/-- Lines 154–190: label resolution, class counting and the call into the
external learner; returns the freshly built model, the (possibly shed)
training matrix, the resolved labels, and the labels-inference notice. -/
def trainCore {T : Type} (C : Classifier T) (p : Params T) (info : DatasetInfo)
    (ts0 : Mat) :
    Except RunError (DecisionTreeModel T × Mat × List ℕ × List LogMsg) :=
  match resolveLabels ts0 p.labels with
  | none => .error (.outOfBounds rowOobMsg)
  | some (trainingSet, labels) =>
    match numClassesOf labels with
    | none => .error (.runtime maxEmptyMsg)
    | some numClasses =>
      let minLeafSize := toSizeT p.minimum_leaf_size
      let tree :=
        match p.weights with
        | some w =>
            C.trainWeighted trainingSet info labels numClasses w minLeafSize
              p.minimum_gain_split
        | none =>
            C.trainUnweighted trainingSet info labels numClasses minLeafSize
              p.minimum_gain_split
      let logs := if p.labels.isSome then [] else [LogMsg.usingLastDim]
      .ok (⟨tree, info⟩, trainingSet, labels, logs)

/-- Lines 200–203 and 233–236: the accuracy loop
`for i in [0, n): if predictions[i] == labels[i] ++correct`, with every
element access bounds-checked (`none` = some access was out of bounds). -/
def accuracyCorrect (preds labels : List ℕ) : ℕ → Option ℕ
  | 0 => some 0
  | n + 1 =>
    match accuracyCorrect preds labels n with
    | none => none
    | some c =>
      match preds.get? n, labels.get? n with
      | some pv, some lv => some (if pv = lv then c + 1 else c)
      | _, _ => none

/-- Lines 193–209: the training-error report.  Classify the training set
with the fresh model and count correct predictions; the produced log entry
carries the raw counts (the printed percentage is `100 * correct / total`).
`none` models an out-of-bounds access in the loop. -/
def printTrainingErrorBlock {T : Type} (C : Classifier T) (tree : T)
    (trainingSet : Mat) (labels : List ℕ) : Option LogMsg :=
  match accuracyCorrect (C.classify tree trainingSet).1 labels trainingSet.nCols with
  | none => none
  | some correct => some (LogMsg.accuracy "training" correct trainingSet.nCols)

/-- Lines 152–210: the whole training branch. -/
def trainPhase {T : Type} (C : Classifier T) (p : Params T) (info : DatasetInfo)
    (ts0 : Mat) : Except RunError (DecisionTreeModel T × List LogMsg) :=
  match trainCore C p info ts0 with
  | .error e => .error e
  | .ok (model, trainingSet, labels, logs0) =>
    if p.print_training_error then
      match printTrainingErrorBlock C model.tree trainingSet labels with
      | none => .error (.outOfBounds accuracyOobMsg)
      | some msg => .ok (model, logs0 ++ [msg])
    else
      .ok (model, logs0)

/-- Lines 152–214: train a model, or take the pre-trained input model.  The
`none`/`none` case is unreachable after `checkParams` and re-issues the
`RequireOnlyOnePassed` configuration error. -/
def getModel {T : Type} (C : Classifier T) (p : Params T) :
    Except RunError (DecisionTreeModel T × List LogMsg) :=
  match p.training with
  | some (info, ts0) => trainPhase C p info ts0
  | none =>
    match p.inputModel with
    | some m => .ok (m, [])
    | none => .error (.config requireOnlyOneMsg)

/-- Lines 217–247: the test branch.  The test set's categorical metadata is
overwritten with the model's (line 219) before `Classify`; if test labels
were passed the accuracy loop runs; predictions and probabilities are
produced unconditionally.  Returns (metadata used, predictions,
probabilities, logs). -/
def testPhase {T : Type} (C : Classifier T) (model : DecisionTreeModel T)
    (testLabels : Option (List ℕ)) (testPoints : Mat) :
    Except RunError (DatasetInfo × List ℕ × Mat × List LogMsg) :=
  match testLabels with
  | some tl =>
    match accuracyCorrect (C.classify model.tree testPoints).1 tl
        testPoints.nCols with
    | none => .error (.outOfBounds accuracyOobMsg)
    | some correct =>
        .ok (model.info, (C.classify model.tree testPoints).1,
          (C.classify model.tree testPoints).2,
          [LogMsg.accuracy "test" correct testPoints.nCols])
  | none =>
      .ok (model.info, (C.classify model.tree testPoints).1,
        (C.classify model.tree testPoints).2, [])

/-- Everything one invocation produces: the model written to
`output_model` (line 250), the metadata written into the raw test parameter
(line 219), the two test outputs (lines 245–246, absent when no test set
was given), the log stream and the warnings. -/
structure RunResult (T : Type) where
  model : DecisionTreeModel T
  testInfoUsed : Option DatasetInfo
  predictionsOut : Option (List ℕ)
  probabilitiesOut : Option Mat
  logs : List LogMsg
  warnings : List Warning
deriving DecidableEq

/-- The whole entry point `mlpackMain` (lines 128–251). -/
def mlpackMain {T : Type} (C : Classifier T) (p : Params T) :
    Except RunError (RunResult T) :=
  match checkParams p with
  | .error e => .error e
  | .ok warnings =>
    match getModel C p with
    | .error e => .error e
    | .ok (model, trainLogs) =>
      match p.test with
      | none => .ok ⟨model, none, none, none, trainLogs, warnings⟩
      | some (_tInfo, tPts) =>
        match testPhase C model p.testLabels tPts with
        | .error e => .error e
        | .ok (usedInfo, preds, probs, testLogs) =>
            .ok ⟨model, some usedInfo, some preds, some probs,
              trainLogs ++ testLogs, warnings⟩

/-- The archive contents of `DecisionTreeModel::serialize` (lines 111–116):
the tree, then the `DatasetInfo`. -/
structure SerializedModel (T : Type) where
  tree : T
  info : DatasetInfo
deriving DecidableEq

/-- Lines 111–116: serialization writes `tree` then `info` into the
archive. -/
def serializeModel {T : Type} (m : DecisionTreeModel T) : SerializedModel T :=
  ⟨m.tree, m.info⟩

/-- Modelled from the spec: deserialization is the load direction of
`DecisionTreeModel::serialize`; the Boost archive machinery for the fields
written (the external tree and the metadata) restores exactly what was
stored, per the spec's round-trip contract for `ClassifierInstance`. -/
def deserializeModel {T : Type} (a : SerializedModel T) : DecisionTreeModel T :=
  ⟨a.tree, a.info⟩

/-- Follows the spec's words: the "integer-rounded contents" of a label
row (round to the nearest integer). -/
def intRoundedLabels (r : List ℚ) : List ℕ := r.map fun q => (round q).toNat

/-- A training matrix whose last row holds the non-integral value `3/2`. -/
def cexMat : Mat := ⟨1, [[0], [Rat.divInt 3 2]]⟩

/-- A trivial instantiation of the external learner, used to evaluate the
orchestration on concrete inputs: the tree state is `Unit` and
classification predicts class `0` for every sample with a constant
probability row. -/
def unitClassifier : Classifier Unit where
  trainUnweighted := fun _ _ _ _ _ _ => ()
  trainWeighted := fun _ _ _ _ _ _ _ => ()
  classify := fun _ m => (List.replicate m.nCols 0, ⟨m.nCols, [List.replicate m.nCols 1]⟩)

/-- Example metadata: one numeric dimension. -/
def exInfo : DatasetInfo := ⟨[0]⟩

/-- Example pre-trained model. -/
def exModel : DecisionTreeModel Unit := ⟨(), exInfo⟩

/-- Example matrix with one row and two samples. -/
def exMat2 : Mat := ⟨2, [[1, 2]]⟩

/-- Baseline parameters: nothing passed, defaults `minimum_leaf_size = 20`
and `minimum_gain_split = 1e-7`, the model output requested. -/
def pBase : Params Unit where
  training := none
  labels := none
  test := none
  weights := none
  testLabels := none
  minimum_leaf_size := 20
  minimum_gain_split := Rat.divInt 1 10000000
  print_training_error := false
  inputModel := none
  outputModelPassed := true
  probabilitiesPassed := false
  predictionsPassed := false

/-- Parameters loading a model (used with `checkParams`). -/
def pLoad : Params Unit := { pBase with inputModel := some exModel }

/-- Parameters loading a model and classifying a test set. -/
def pLoadTest : Params Unit :=
  { pBase with inputModel := some exModel, test := some (⟨[0]⟩, exMat2) }

/-- Parameters training on `exMat2` with explicit labels and the
training-error report requested. -/
def pTrainErr : Params Unit :=
  { pBase with
    training := some (exInfo, exMat2)
    labels := some [0, 0]
    print_training_error := true }

/-- Parameters loading a model, with both prediction outputs requested but
no test set. -/
def pNoTest : Params Unit :=
  { pBase with
    inputModel := some exModel
    probabilitiesPassed := true
    predictionsPassed := true }

/-- The run result of `mlpackMain unitClassifier pLoadTest`. -/
def rLoadTest : RunResult Unit :=
  ⟨exModel, some exInfo, some [0, 0], some ⟨2, [[1, 1]]⟩, [], []⟩

/-- The run result of `mlpackMain unitClassifier pTrainErr` (training error
requested: both training samples are predicted correctly). -/
def rTrainErr : RunResult Unit :=
  ⟨exModel, none, none, none, [LogMsg.accuracy "training" 2 2], []⟩

/-- The run result of `mlpackMain unitClassifier pNoTest`. -/
def rNoTest : RunResult Unit :=
  ⟨exModel, none, none, none, [],
    [Warning.ignoredParam "predictions", Warning.ignoredParam "predictions"]⟩

/-! ## Helper lemmas -/

theorem get?_last_of_ne_nil {α : Type} (l : List α) (h : l ≠ []) :
    l.get? (l.length - 1) = some (l.getLast h) := by
  rw [List.get?_eq_getElem?, ← List.getLast?_eq_getElem?,
    List.getLast?_eq_getLast_of_ne_nil h]

theorem eraseIdx_last {α : Type} (l : List α) (h : l ≠ []) :
    l.eraseIdx (l.length - 1) = l.dropLast := by
  have hp := List.length_pos.mpr h
  rw [← List.dropLast_eq_eraseIdx]
  omega

theorem armaMaxRow_eq_max? (l : List ℕ) : armaMaxRow l = l.max? := by
  cases l <;> rfl

theorem shedRowIdx_of_ne_nil (m : Mat) (h : m.rows ≠ [])
    (hlt : m.rows.length < SIZE_T_CARD) :
    shedRowIdx m = m.rows.length - 1 := by
  have hp := List.length_pos.mpr h
  unfold shedRowIdx SIZE_T_CARD
  unfold SIZE_T_CARD at hlt
  omega

theorem lastRowAsLabels_of_ne_nil (m : Mat) (h : m.rows ≠ [])
    (hlt : m.rows.length < SIZE_T_CARD) :
    lastRowAsLabels m =
      some (⟨m.nCols, m.rows.dropLast⟩, (m.rows.getLast h).map convToSizeT) := by
  unfold lastRowAsLabels
  rw [shedRowIdx_of_ne_nil m h hlt, get?_last_of_ne_nil m.rows h,
    eraseIdx_last m.rows h]

/-! ## Claim theorems -/

/-- Claim C1 (amended): label resolution.  With an explicit label vector,
the matrix and labels are passed on unchanged.  Without one, exactly the
last row is removed (the result has one fewer row) and the labels are the
integer-truncated (toward zero) contents of that removed row — `arma::conv_to`
to an integer type truncates, it does not round. -/
theorem resolveLabels_spec (ts : Mat) (l : List ℕ) (h : ts.rows ≠ [])
    (hlt : ts.rows.length < SIZE_T_CARD) :
    resolveLabels ts (some l) = some (ts, l)
    ∧ resolveLabels ts none =
        some (⟨ts.nCols, ts.rows.dropLast⟩, (ts.rows.getLast h).map convToSizeT)
    ∧ ts.rows.dropLast.length + 1 = ts.rows.length := by
  have hp := List.length_pos.mpr h
  refine ⟨rfl, ?_, ?_⟩
  · show lastRowAsLabels ts = _
    exact lastRowAsLabels_of_ne_nil ts h hlt
  · rw [List.length_dropLast]
    omega

/-- Claim C1 (witness for the amended statement): a two-row matrix with an
integral last row. -/
theorem resolveLabels_spec_witness :
    resolveLabels ⟨1, [[0], [5]]⟩ (some [7]) = some (⟨1, [[0], [5]]⟩, [7])
    ∧ resolveLabels (⟨1, [[0], [5]]⟩ : Mat) none =
        some (⟨1, [[0]]⟩, ((⟨1, [[0], [5]]⟩ : Mat).rows.getLast (by decide)).map convToSizeT)
    ∧ ((⟨1, [[0], [5]]⟩ : Mat) : Mat).rows.dropLast.length + 1 = 2 := by
  have hw := resolveLabels_spec ⟨1, [[0], [5]]⟩ [7] (by decide) (by norm_num [SIZE_T_CARD])
  exact ⟨hw.1, hw.2.1, hw.2.2⟩

/-- Claim C1 (counterexample to the claim as stated): at a matrix whose
last row holds `3/2`, the code produces label `1` (truncation) while the
integer-rounded contents of that row would be `2`. -/
theorem resolveLabels_not_rounded :
    resolveLabels cexMat none = some (⟨1, [[0]]⟩, [1])
    ∧ intRoundedLabels [Rat.divInt 3 2] = [2]
    ∧ ([1] : List ℕ) ≠ [2] := by
  refine ⟨by decide, ?_, by decide⟩
  have h32 : Rat.divInt 3 2 = (3 : ℚ) / 2 := by
    rw [Rat.divInt_eq_div]; norm_num
  have hr : round (Rat.divInt 3 2) = 2 := by
    rw [h32, round_eq]; norm_num
  simp [intRoundedLabels, hr]

/-- Claim C2: the class count handed to training is the maximum label value
plus one (`numClasses = max(label) + 1`), whether or not the labels form a
dense zero-based range. -/
theorem numClasses_eq_max_add_one (l : List ℕ) (x : ℕ) (hx : x ∈ l)
    (hmax : ∀ y ∈ l, y ≤ x) : numClassesOf l = some (x + 1) := by
  unfold numClassesOf
  rw [armaMaxRow_eq_max?,
    (List.max?_eq_some_iff (fun a => le_refl a) (fun a b => max_choice a b)
      (fun a b c => max_le_iff)).mpr ⟨hx, hmax⟩]
  rfl

/-- Claim C2 (witness): labels `[0, 5]` have a gap, yet the class count is
`5 + 1 = 6`, not the number of distinct labels. -/
theorem numClasses_eq_max_add_one_witness : numClassesOf [0, 5] = some 6 := by
  have h := numClasses_eq_max_add_one [0, 5] 5 (by decide) (by decide)
  simpa using h

/-- Claim C6: serializing a trained model and deserializing the result
yields the identical model, so classification of any test set with both
instances produces identical predictions and probabilities. -/
theorem serialize_roundtrip {T : Type} (C : Classifier T)
    (m : DecisionTreeModel T) (X : Mat) :
    deserializeModel (serializeModel m) = m
    ∧ C.classify (deserializeModel (serializeModel m)).tree X =
        C.classify m.tree X :=
  ⟨rfl, rfl⟩

/-- Claim C8: the labels-from-last-row extraction accesses row index
`n_rows - 1` with no emptiness guard: for a zero-row matrix the `size_t`
index wraps to `2^64 - 1` and the access is out of bounds; for a matrix
with at least one row the index is `n_rows - 1` and the access is in
bounds. -/
theorem lastRow_bounds (m : Mat) :
    (m.rows = [] → shedRowIdx m = SIZE_T_CARD - 1 ∧ lastRowAsLabels m = none)
    ∧ (m.rows ≠ [] → m.rows.length < SIZE_T_CARD →
        shedRowIdx m = m.rows.length - 1 ∧ (lastRowAsLabels m).isSome) := by
  constructor
  · intro h
    have hidx : shedRowIdx m = SIZE_T_CARD - 1 := by
      unfold shedRowIdx
      rw [h]
      simp [SIZE_T_CARD]
    refine ⟨hidx, ?_⟩
    unfold lastRowAsLabels
    rw [h, hidx]
    simp
  · intro h hlt
    refine ⟨shedRowIdx_of_ne_nil m h hlt, ?_⟩
    rw [lastRowAsLabels_of_ne_nil m h hlt]
    rfl

/-- Claim C8 (witness): the zero-row case wraps and is rejected; a one-row
matrix is accepted at index `0`. -/
theorem lastRow_bounds_witness :
    (shedRowIdx ⟨0, []⟩ = SIZE_T_CARD - 1 ∧ lastRowAsLabels ⟨0, []⟩ = none)
    ∧ (shedRowIdx ⟨1, [[0]]⟩ = 0 ∧ (lastRowAsLabels (⟨1, [[0]]⟩ : Mat)).isSome) := by
  refine ⟨(lastRow_bounds ⟨0, []⟩).1 rfl, ?_⟩
  have h := (lastRow_bounds ⟨1, [[0]]⟩).2 (by decide) (by norm_num [SIZE_T_CARD])
  simpa using h

/-- Claim C9: the accuracy loops index predictions and labels at every
`i < n` (the column count) without length checks: if both vectors have at
least `n` entries every access is in bounds, and a label vector shorter
than `n` makes an access out of bounds. -/
theorem accuracy_loop_bounds (preds labels : List ℕ) (n : ℕ) :
    (n ≤ preds.length → n ≤ labels.length →
      (accuracyCorrect preds labels n).isSome)
    ∧ (labels.length < n → accuracyCorrect preds labels n = none) := by
  induction n with
  | zero =>
    exact ⟨fun _ _ => rfl, fun h => absurd h (by omega)⟩
  | succ k ih =>
    constructor
    · intro hp hl
      have hk := ih.1 (by omega) (by omega)
      unfold accuracyCorrect
      cases hacc : accuracyCorrect preds labels k with
      | none => rw [hacc] at hk; exact absurd hk (by simp)
      | some c =>
        cases hpg : preds.get? k with
        | none =>
          rw [List.get?_eq_none] at hpg
          omega
        | some pv =>
          cases hlg : labels.get? k with
          | none =>
            rw [List.get?_eq_none] at hlg
            omega
          | some lv => simp
    · intro hl
      unfold accuracyCorrect
      cases hacc : accuracyCorrect preds labels k with
      | none => rfl
      | some c =>
        have hlk : labels.length = k := by
          by_contra hne
          have := ih.2 (by omega)
          rw [this] at hacc
          exact Option.noConfusion hacc
        have hlg : labels.get? k = none := List.get?_eq_none.mpr (by omega)
        cases hpg : preds.get? k with
        | none => rfl
        | some pv => rw [hlg]

/-- Claim C9 (witness): with two columns, a two-entry label vector is in
bounds and a one-entry label vector is out of bounds. -/
theorem accuracy_loop_bounds_witness :
    (accuracyCorrect [0, 1] [0, 1] 2).isSome
    ∧ accuracyCorrect [0, 1] [0] 2 = none :=
  ⟨(accuracy_loop_bounds [0, 1] [0, 1] 2).1 (by decide) (by decide),
   (accuracy_loop_bounds [0, 1] [0] 2).2 (by decide)⟩

/-! ## Inversion and shape lemmas for the run pipeline -/

theorem checkParams_ok_exactlyOne {T : Type} (p : Params T) (w : List Warning)
    (h : checkParams p = .ok w) : p.training.isSome ≠ p.inputModel.isSome := by
  intro he
  unfold checkParams at h
  rw [if_pos he] at h
  exact Except.noConfusion h

theorem trainCore_error_shape {T : Type} (C : Classifier T) (p : Params T)
    (info : DatasetInfo) (ts0 : Mat) (e : RunError)
    (h : trainCore C p info ts0 = .error e) :
    e = .outOfBounds rowOobMsg ∨ e = .runtime maxEmptyMsg := by
  unfold trainCore at h
  split at h
  · exact Or.inl (Except.error.inj h).symm
  · split at h
    · exact Or.inr (Except.error.inj h).symm
    · exact Except.noConfusion h

theorem trainPhase_error_shape {T : Type} (C : Classifier T) (p : Params T)
    (info : DatasetInfo) (ts0 : Mat) (e : RunError)
    (h : trainPhase C p info ts0 = .error e) :
    e = .outOfBounds rowOobMsg ∨ e = .runtime maxEmptyMsg
    ∨ e = .outOfBounds accuracyOobMsg := by
  unfold trainPhase at h
  split at h
  · rename_i e1 heq
    have h1 := trainCore_error_shape C p info ts0 e1 heq
    have h2 := (Except.error.inj h).symm
    rcases h1 with h1 | h1
    · exact Or.inl (h2.trans h1)
    · exact Or.inr (Or.inl (h2.trans h1))
  · split at h
    · split at h
      · exact Or.inr (Or.inr (Except.error.inj h).symm)
      · exact Except.noConfusion h
    · exact Except.noConfusion h

theorem testPhase_error_shape {T : Type} (C : Classifier T)
    (model : DecisionTreeModel T) (tls : Option (List ℕ)) (tp : Mat)
    (e : RunError) (h : testPhase C model tls tp = .error e) :
    e = .outOfBounds accuracyOobMsg := by
  unfold testPhase at h
  split at h
  · split at h
    · exact (Except.error.inj h).symm
    · exact Except.noConfusion h
  · exact Except.noConfusion h

theorem testPhase_ok_shape {T : Type} (C : Classifier T)
    (model : DecisionTreeModel T) (tls : Option (List ℕ)) (tp : Mat)
    (ui : DatasetInfo) (preds : List ℕ) (probs : Mat) (lg : List LogMsg)
    (h : testPhase C model tls tp = .ok (ui, preds, probs, lg)) :
    ui = model.info ∧ preds = (C.classify model.tree tp).1
    ∧ probs = (C.classify model.tree tp).2 := by
  unfold testPhase at h
  split at h
  · split at h
    · exact Except.noConfusion h
    · have h2 := Except.ok.inj h
      refine ⟨?_, ?_, ?_⟩
      · exact (congrArg Prod.fst h2).symm
      · exact (congrArg (fun q => q.2.1) h2).symm
      · exact (congrArg (fun q => q.2.2.1) h2).symm
  · have h2 := Except.ok.inj h
    refine ⟨?_, ?_, ?_⟩
    · exact (congrArg Prod.fst h2).symm
    · exact (congrArg (fun q => q.2.1) h2).symm
    · exact (congrArg (fun q => q.2.2.1) h2).symm

theorem mlpackMain_ok_inv {T : Type} (C : Classifier T) (p : Params T)
    (r : RunResult T) (h : mlpackMain C p = .ok r) :
    ∃ w model trainLogs, checkParams p = .ok w
      ∧ getModel C p = .ok (model, trainLogs)
      ∧ ((p.test = none ∧ r = ⟨model, none, none, none, trainLogs, w⟩)
        ∨ (∃ ti tp ui preds probs testLogs, p.test = some (ti, tp)
            ∧ testPhase C model p.testLabels tp = .ok (ui, preds, probs, testLogs)
            ∧ r = ⟨model, some ui, some preds, some probs,
                trainLogs ++ testLogs, w⟩)) := by
  unfold mlpackMain at h
  split at h
  · exact Except.noConfusion h
  · rename_i w hcp
    split at h
    · exact Except.noConfusion h
    · rename_i model trainLogs hgm
      refine ⟨w, model, trainLogs, hcp, hgm, ?_⟩
      split at h
      · rename_i htest
        exact Or.inl ⟨htest, (Except.ok.inj h).symm⟩
      · rename_i ti tp htest
        split at h
        · exact Except.noConfusion h
        · rename_i ui preds probs testLogs htp
          exact Or.inr ⟨ti, tp, ui, preds, probs, testLogs, htest, htp,
            (Except.ok.inj h).symm⟩

theorem mlpackMain_build_none {T : Type} (C : Classifier T) (p : Params T)
    (w : List Warning) (model : DecisionTreeModel T) (trainLogs : List LogMsg)
    (hcp : checkParams p = .ok w) (hgm : getModel C p = .ok (model, trainLogs))
    (htest : p.test = none) :
    mlpackMain C p = .ok ⟨model, none, none, none, trainLogs, w⟩ := by
  unfold mlpackMain
  rw [hcp, hgm, htest]

theorem mlpackMain_build_some {T : Type} (C : Classifier T) (p : Params T)
    (w : List Warning) (model : DecisionTreeModel T) (trainLogs : List LogMsg)
    (ti : DatasetInfo) (tp : Mat) (ui : DatasetInfo) (preds : List ℕ)
    (probs : Mat) (testLogs : List LogMsg)
    (hcp : checkParams p = .ok w) (hgm : getModel C p = .ok (model, trainLogs))
    (htest : p.test = some (ti, tp))
    (htp : testPhase C model p.testLabels tp = .ok (ui, preds, probs, testLogs)) :
    mlpackMain C p = .ok ⟨model, some ui, some preds, some probs,
      trainLogs ++ testLogs, w⟩ := by
  unfold mlpackMain
  rw [hcp, hgm, htest]
  dsimp only
  rw [htp]

/-- Claim C3: exactly one of the training set and the input model must be
passed: the run ends in the `RequireOnlyOnePassed` configuration error
precisely when both or neither are passed, and the error is raised by the
parameter checks before any training or inference. -/
theorem require_only_one_passed {T : Type} (C : Classifier T) (p : Params T) :
    mlpackMain C p = .error (.config requireOnlyOneMsg) ↔
      p.training.isSome = p.inputModel.isSome := by
  constructor
  · intro h
    by_contra hne
    unfold mlpackMain at h
    split at h
    · rename_i e hcp
      unfold checkParams at hcp
      rw [if_neg hne] at hcp
      split at hcp
      · have h2 := (Except.error.inj hcp).trans (Except.error.inj h)
        have h3 := RunError.config.inj h2
        exact absurd h3 (by decide)
      · split at hcp
        · have h2 := (Except.error.inj hcp).trans (Except.error.inj h)
          have h3 := RunError.config.inj h2
          exact absurd h3 (by decide)
        · exact Except.noConfusion hcp
    · rename_i w hcp
      split at h
      · rename_i e hgm
        unfold getModel at hgm
        split at hgm
        · rename_i info ts0 htr
          have h1 := trainPhase_error_shape C p info ts0 e hgm
          have h2 := Except.error.inj h
          rcases h1 with h1 | h1 | h1 <;> rw [h1] at h2 <;>
            exact RunError.noConfusion h2
        · split at hgm
          · exact Except.noConfusion hgm
          · simp_all
      · rename_i model trainLogs hgm
        split at h
        · exact Except.noConfusion h
        · split at h
          · rename_i e htp
            have h1 := testPhase_error_shape C model p.testLabels _ e htp
            have h2 := Except.error.inj h
            rw [h1] at h2
            exact RunError.noConfusion h2
          · exact Except.noConfusion h
  · intro h
    have hcp : checkParams p = .error (.config requireOnlyOneMsg) := by
      unfold checkParams
      rw [if_pos h]
    unfold mlpackMain
    rw [hcp]

/-- Claim C4: given the mode check passed (exactly one of training set and
input model), the parameter checks succeed exactly when
`minimum_leaf_size` is positive and `minimum_gain_split` lies strictly
between 0 and 1; otherwise they fail with a configuration error. -/
theorem hyperparam_validation {T : Type} (p : Params T)
    (h : p.training.isSome ≠ p.inputModel.isSome) :
    ((∃ w, checkParams p = .ok w) ↔
      (0 < p.minimum_leaf_size ∧
        0 < p.minimum_gain_split ∧ p.minimum_gain_split < 1))
    ∧ (¬ (0 < p.minimum_leaf_size ∧
          0 < p.minimum_gain_split ∧ p.minimum_gain_split < 1) →
        ∃ s, checkParams p = .error (.config s)) := by
  unfold checkParams
  rw [if_neg h]
  by_cases h1 : 0 < p.minimum_leaf_size
  · by_cases h2 : 0 < p.minimum_gain_split ∧ p.minimum_gain_split < 1
    · simp [h1, h2]
    · simp [h1, h2]
  · simp [h1]

/-- Claim C4 (witness): loading a model with the default hyperparameters
(`minimum_leaf_size = 20`, `minimum_gain_split = 1e-7`) passes
validation. -/
theorem hyperparam_validation_witness : ∃ w, checkParams pLoad = .ok w :=
  (hyperparam_validation pLoad (by decide)).1.mpr (by decide)

/-- Claim C5: when a test set is supplied and the run completes, the
metadata attached to the test data is the model's stored metadata
(regardless of the test set's own), and the prediction and probability
outputs are exactly the classifier's results on the test points — whether
or not test labels were supplied. -/
theorem test_phase_outputs {T : Type} (C : Classifier T) (p : Params T)
    (ti : DatasetInfo) (tp : Mat) (r : RunResult T)
    (htest : p.test = some (ti, tp)) (hrun : mlpackMain C p = .ok r) :
    r.testInfoUsed = some r.model.info
    ∧ r.predictionsOut = some (C.classify r.model.tree tp).1
    ∧ r.probabilitiesOut = some (C.classify r.model.tree tp).2 := by
  obtain ⟨w, model, trainLogs, hcp, hgm, hcase⟩ := mlpackMain_ok_inv C p r hrun
  rcases hcase with ⟨hnone, -⟩ |
    ⟨ti2, tp2, ui, preds, probs, testLogs, htest2, htp, hr⟩
  · rw [htest] at hnone
    exact Option.noConfusion hnone
  · rw [htest] at htest2
    obtain ⟨hti, htp2⟩ := Prod.mk.inj (Option.some.inj htest2)
    subst htp2
    obtain ⟨hui, hpreds, hprobs⟩ :=
      testPhase_ok_shape C model p.testLabels _ ui preds probs testLogs htp
    subst hr
    exact ⟨by simp [hui], by simp [hpreds], by simp [hprobs]⟩

/-- Claim C5 (witness): loading a model and classifying a concrete test
set. -/
theorem test_phase_outputs_witness :
    rLoadTest.testInfoUsed = some rLoadTest.model.info
    ∧ rLoadTest.predictionsOut =
        some (unitClassifier.classify rLoadTest.model.tree exMat2).1
    ∧ rLoadTest.probabilitiesOut =
        some (unitClassifier.classify rLoadTest.model.tree exMat2).2 :=
  test_phase_outputs unitClassifier pLoadTest ⟨[0]⟩ exMat2 rLoadTest rfl rfl

theorem checkParams_ok_warnings {T : Type} (p : Params T) (w : List Warning)
    (hcp : checkParams p = .ok w) : w = ignoredWarnings p := by
  unfold checkParams at hcp
  split at hcp
  · exact Except.noConfusion hcp
  · split at hcp
    · exact Except.noConfusion hcp
    · split at hcp
      · exact Except.noConfusion hcp
      · exact (Except.ok.inj hcp).symm

theorem ignoredWarnings_elems {T : Type} (p : Params T) (x : Warning)
    (hx : x ∈ ignoredWarnings p) :
    x = .ignoredParam "test_labels" ∨ x = .noOutput
    ∨ x = .ignoredParam "print_training_error"
    ∨ x = .ignoredParam "predictions" := by
  unfold ignoredWarnings at hx
  simp only [List.mem_append] at hx
  rcases hx with ((((hx | hx) | hx) | hx) | hx) <;> split at hx <;> simp_all

theorem ignoredWarnings_pred_count {T : Type} (p : Params T)
    (htest : p.test = none) (hpred : p.predictionsPassed = true) :
    (ignoredWarnings p).count (Warning.ignoredParam "predictions") = 2 := by
  unfold ignoredWarnings
  rw [htest, hpred]
  by_cases h1 : p.testLabels.isSome <;>
    by_cases h2 : p.outputModelPassed || p.probabilitiesPassed || p.predictionsPassed <;>
      by_cases h3 : p.training.isNone && p.print_training_error <;>
        simp [h1, h2, h3, List.count_append, List.count_cons, List.count_nil]

/-- Claim C10: requesting the probabilities output without a test set
draws no ignored-parameter warning for `probabilities` and the run
completes without ever producing that output; the ignored-parameter check
is applied to `predictions` twice (so, when `predictions` was requested,
that warning appears twice) and never to `probabilities`. -/
theorem probabilities_warning_gap {T : Type} (C : Classifier T) (p : Params T)
    (r : RunResult T) (htest : p.test = none)
    (hprob : p.probabilitiesPassed = true) (hrun : mlpackMain C p = .ok r) :
    Warning.ignoredParam "probabilities" ∉ r.warnings
    ∧ r.probabilitiesOut = none
    ∧ (p.predictionsPassed = true →
        r.warnings.count (Warning.ignoredParam "predictions") = 2) := by
  obtain ⟨w, model, trainLogs, hcp, hgm, hcase⟩ := mlpackMain_ok_inv C p r hrun
  rcases hcase with ⟨-, hr⟩ | ⟨ti, tp, ui, preds, probs, tl, htest2, -, -⟩
  · have hw := checkParams_ok_warnings p w hcp
    subst hr hw
    refine ⟨?_, rfl, ?_⟩
    · intro hmem
      rcases ignoredWarnings_elems p _ hmem with h | h | h | h <;> simp_all
    · intro hpred
      exact ignoredWarnings_pred_count p htest hpred
  · rw [htest] at htest2
    exact Option.noConfusion htest2

/-- Claim C10 (witness): a run loading a model with both outputs requested
and no test set. -/
theorem probabilities_warning_gap_witness :
    Warning.ignoredParam "probabilities" ∉ rNoTest.warnings
    ∧ rNoTest.probabilitiesOut = none
    ∧ (pNoTest.predictionsPassed = true →
        rNoTest.warnings.count (Warning.ignoredParam "predictions") = 2) :=
  probabilities_warning_gap unitClassifier pNoTest rNoTest rfl rfl rfl

/-! ## Lemmas for the training-error report -/

theorem trainCore_flag {T : Type} (C : Classifier T) (p : Params T) (b : Bool)
    (info : DatasetInfo) (ts0 : Mat) :
    trainCore C { p with print_training_error := b } info ts0 =
      trainCore C p info ts0 := rfl

theorem checkParams_flag {T : Type} (p : Params T) (b : Bool)
    (t : DatasetInfo × Mat) (htr : p.training = some t) :
    checkParams { p with print_training_error := b } = checkParams p := by
  unfold checkParams ignoredWarnings
  simp [htr]

theorem trainPhase_ok_inv_true {T : Type} (C : Classifier T) (p : Params T)
    (info : DatasetInfo) (ts0 : Mat) (model : DecisionTreeModel T)
    (tl : List LogMsg) (hflag : p.print_training_error = true)
    (h : trainPhase C p info ts0 = .ok (model, tl)) :
    ∃ trainingSet labels logs0 msg,
      trainCore C p info ts0 = .ok (model, trainingSet, labels, logs0)
      ∧ printTrainingErrorBlock C model.tree trainingSet labels = some msg
      ∧ tl = logs0 ++ [msg] := by
  unfold trainPhase at h
  split at h
  · exact Except.noConfusion h
  · rename_i model2 trainingSet labels logs0 hcore
    rw [hflag] at h
    simp only [if_true] at h
    split at h
    · exact Except.noConfusion h
    · rename_i msg hblock
      obtain ⟨hm, htl⟩ := Prod.mk.inj (Except.ok.inj h)
      subst hm
      exact ⟨trainingSet, labels, logs0, msg, hcore, hblock, htl.symm⟩

theorem trainPhase_of_core_false {T : Type} (C : Classifier T) (p : Params T)
    (info : DatasetInfo) (ts0 : Mat) (model : DecisionTreeModel T)
    (trainingSet : Mat) (labels : List ℕ) (logs0 : List LogMsg)
    (hflag : p.print_training_error = false)
    (hcore : trainCore C p info ts0 = .ok (model, trainingSet, labels, logs0)) :
    trainPhase C p info ts0 = .ok (model, logs0) := by
  unfold trainPhase
  rw [hcore, hflag]
  simp

theorem accuracyCorrect_countP (preds labels : List ℕ) (n c : ℕ)
    (h : accuracyCorrect preds labels n = some c) :
    c = ((List.range n).countP
      fun i => decide (preds.get? i = labels.get? i)) := by
  induction n generalizing c with
  | zero =>
    have h0 : c = 0 := (Option.some.inj h).symm
    simp [h0]
  | succ k ih =>
    unfold accuracyCorrect at h
    cases hacc : accuracyCorrect preds labels k with
    | none => rw [hacc] at h; exact Option.noConfusion h
    | some c0 =>
      rw [hacc] at h
      cases hp : preds.get? k with
      | none => rw [hp] at h; exact Option.noConfusion h
      | some pv =>
        cases hl : labels.get? k with
        | none => rw [hp, hl] at h; exact Option.noConfusion h
        | some lv =>
          rw [hp, hl] at h
          have hc0 := ih c0 hacc
          have hcv := (Option.some.inj h).symm
          have hp2 : preds[k]? = some pv := by
            rw [← List.get?_eq_getElem?]; exact hp
          have hl2 : labels[k]? = some lv := by
            rw [← List.get?_eq_getElem?]; exact hl
          rw [List.range_succ, List.countP_append, ← hc0]
          by_cases hpl : pv = lv <;>
            simp [List.countP_cons, hp, hl, hp2, hl2, hpl, hcv]

/-- Claim C7: the training-error report is purely diagnostic.  If the run
with `print_training_error` completes, the run without it completes too,
with the same model, test metadata, outputs and warnings (only the log
stream gains the report); and the reported entry carries the training
column count and the count of training columns whose prediction equals the
label. -/
theorem training_error_frame {T : Type} (C : Classifier T) (p : Params T)
    (t : DatasetInfo × Mat) (r : RunResult T) (htr : p.training = some t)
    (h : mlpackMain C { p with print_training_error := true } = .ok r) :
    (∃ r', mlpackMain C { p with print_training_error := false } = .ok r'
      ∧ r'.model = r.model ∧ r'.testInfoUsed = r.testInfoUsed
      ∧ r'.predictionsOut = r.predictionsOut
      ∧ r'.probabilitiesOut = r.probabilitiesOut
      ∧ r'.warnings = r.warnings)
    ∧ (∀ tree ts ls s c n,
        printTrainingErrorBlock C tree ts ls = some (LogMsg.accuracy s c n) →
          s = "training" ∧ n = ts.nCols
          ∧ accuracyCorrect (C.classify tree ts).1 ls ts.nCols = some c
          ∧ c = ((List.range ts.nCols).countP
              fun i => decide ((C.classify tree ts).1.get? i = ls.get? i))) := by
  constructor
  · obtain ⟨info, ts0⟩ := t
    obtain ⟨w, model, trainLogs, hcp, hgm, hcase⟩ := mlpackMain_ok_inv C _ r h
    have htrT : ({ p with print_training_error := true } : Params T).training
        = some (info, ts0) := htr
    unfold getModel at hgm
    rw [htrT] at hgm
    dsimp only at hgm
    obtain ⟨tset, ls, logs0, msg, hcore, hblock, htl⟩ :=
      trainPhase_ok_inv_true C _ info ts0 model trainLogs rfl hgm
    have hcoreF : trainCore C { p with print_training_error := false } info ts0
        = .ok (model, tset, ls, logs0) := hcore
    have hphF : trainPhase C { p with print_training_error := false } info ts0
        = .ok (model, logs0) :=
      trainPhase_of_core_false C _ info ts0 model tset ls logs0 rfl hcoreF
    have hgmF : getModel C { p with print_training_error := false }
        = .ok (model, logs0) := by
      unfold getModel
      have htrF : ({ p with print_training_error := false } : Params T).training
          = some (info, ts0) := htr
      rw [htrF]
      dsimp only
      exact hphF
    have hcpF : checkParams { p with print_training_error := false } = .ok w := by
      rw [checkParams_flag p false (info, ts0) htr]
      rw [← checkParams_flag p true (info, ts0) htr]
      exact hcp
    rcases hcase with ⟨htest, hr⟩ |
      ⟨ti, tp, ui, preds, probs, testLogs, htest, htp, hr⟩
    · refine ⟨⟨model, none, none, none, logs0, w⟩, ?_, ?_⟩
      · exact mlpackMain_build_none C _ w model logs0 hcpF hgmF htest
      · subst hr
        exact ⟨rfl, rfl, rfl, rfl, rfl⟩
    · refine ⟨⟨model, some ui, some preds, some probs, logs0 ++ testLogs, w⟩,
        ?_, ?_⟩
      · exact mlpackMain_build_some C _ w model logs0 ti tp ui preds probs
          testLogs hcpF hgmF htest htp
      · subst hr
        exact ⟨rfl, rfl, rfl, rfl, rfl⟩
  · intro tree ts ls s c n hb
    unfold printTrainingErrorBlock at hb
    split at hb
    · exact Option.noConfusion hb
    · rename_i correct hacc
      have hinj := Option.some.inj hb
      have hs : s = "training" := by
        have := congrArg (fun m => match m with
          | LogMsg.accuracy sn _ _ => sn
          | LogMsg.usingLastDim => "") hinj
        simpa using this.symm
      have hc : correct = c := by
        have := congrArg (fun m => match m with
          | LogMsg.accuracy _ cc _ => cc
          | LogMsg.usingLastDim => 0) hinj
        simpa using this
      have hn : n = ts.nCols := by
        have := congrArg (fun m => match m with
          | LogMsg.accuracy _ _ tt => tt
          | LogMsg.usingLastDim => 0) hinj
        simpa using this.symm
      subst hc
      exact ⟨hs, hn, hacc, accuracyCorrect_countP _ _ _ _ hacc⟩

/-- Claim C7 (witness): training on a concrete set with the report
requested; the run without the report produces the same model, outputs and
warnings. -/
theorem training_error_frame_witness :
    ∃ r', mlpackMain unitClassifier
        { pTrainErr with print_training_error := false } = .ok r'
      ∧ r'.model = rTrainErr.model ∧ r'.testInfoUsed = rTrainErr.testInfoUsed
      ∧ r'.predictionsOut = rTrainErr.predictionsOut
      ∧ r'.probabilitiesOut = rTrainErr.probabilitiesOut
      ∧ r'.warnings = rTrainErr.warnings :=
  (training_error_frame unitClassifier pTrainErr (exInfo, exMat2) rTrainErr
    rfl rfl).1

end DTreeMain
